import Mathlib

/-!
Shallow embedding of `python-services/chat_api.py`: the bounded LRU
`ModelCache` (an `OrderedDict` keyed by model path; list order is the
recency order, front = least recently used, back = most recently used),
the loader `load_model` and resolver `get_model`, and the text
post-processing functions `clean_response` and `generate_response`.
External machinery (CUDA, the transformer forward pass, the JSON parser,
FastAPI transport) is modelled by opaque parameters and flags.
-/

set_option maxHeartbeats 1000000

namespace ChatbotMaker

/-! ### Association-list primitives mirroring `OrderedDict`

An `OrderedDict` holds uniquely-keyed entries in insertion order;
`move_to_end(key)` reorders an entry to the back and `popitem(last=False)`
removes the front entry.  We model it as a `List (String × α)`. -/

/-- `key in self._cache` / `self._cache[key]`: first entry with the key. -/
def lookup {α : Type} : List (String × α) → String → Option α
  | [], _ => none
  | e :: rest, key => if e.1 = key then some e.2 else lookup rest key

/-- Removal of every entry holding `key` (with unique keys: the one entry);
the removal half of `move_to_end(key)` and `del self._cache[key]`. -/
def eraseKey {α : Type} : List (String × α) → String → List (String × α)
  | [], _ => []
  | e :: rest, key => if e.1 = key then eraseKey rest key else e :: eraseKey rest key

@[simp] theorem lookup_nil {α : Type} (key : String) : lookup ([] : List (String × α)) key = none := rfl

theorem lookup_cons {α : Type} (e : String × α) (rest : List (String × α)) (key : String) :
    lookup (e :: rest) key = if e.1 = key then some e.2 else lookup rest key := rfl

theorem lookup_append {α : Type} (l₁ l₂ : List (String × α)) (key : String) :
    lookup (l₁ ++ l₂) key =
      match lookup l₁ key with
      | some v => some v
      | none => lookup l₂ key := by
  induction l₁ with
  | nil => simp [lookup]
  | cons e rest ih =>
      by_cases h : e.1 = key <;> simp [lookup, h, ih]

theorem lookup_eraseKey_self {α : Type} (l : List (String × α)) (key : String) :
    lookup (eraseKey l key) key = none := by
  induction l with
  | nil => rfl
  | cons e rest ih =>
      by_cases h : e.1 = key <;> simp [eraseKey, lookup, h, ih]

theorem lookup_eraseKey_ne {α : Type} (l : List (String × α)) (key key' : String)
    (h : key' ≠ key) : lookup (eraseKey l key) key' = lookup l key' := by
  induction l with
  | nil => rfl
  | cons e rest ih =>
      by_cases he : e.1 = key
      · have hkk : ¬ (key = key') := fun hc => h hc.symm
        simp [eraseKey, lookup, he, hkk, ih]
      · by_cases he' : e.1 = key' <;> simp [eraseKey, lookup, he, he', h, ih]

theorem eraseKey_length_le {α : Type} (l : List (String × α)) (key : String) :
    (eraseKey l key).length ≤ l.length := by
  induction l with
  | nil => exact Nat.le_refl 0
  | cons e rest ih =>
      by_cases h : e.1 = key <;> simp [eraseKey, h] <;> omega

theorem eraseKey_length_lt {α : Type} (l : List (String × α)) (key : String) (v : α)
    (h : lookup l key = some v) : (eraseKey l key).length < l.length := by
  induction l with
  | nil => simp [lookup] at h
  | cons e rest ih =>
      by_cases he : e.1 = key
      · have := eraseKey_length_le rest key
        simp [eraseKey, he]; omega
      · simp [lookup, he] at h
        have := ih h
        simp [eraseKey, he]; omega

theorem lookup_none_of_not_mem {α : Type} (l : List (String × α)) (key : String)
    (h : key ∉ l.map Prod.fst) : lookup l key = none := by
  induction l with
  | nil => rfl
  | cons e rest ih =>
      simp only [List.map_cons, List.mem_cons] at h
      push_neg at h
      have : e.1 ≠ key := fun hc => h.1 hc.symm
      simp [lookup, this, ih h.2]

theorem eraseKey_of_lookup_none {α : Type} (l : List (String × α)) (key : String)
    (h : lookup l key = none) : eraseKey l key = l := by
  induction l with
  | nil => rfl
  | cons e rest ih =>
      by_cases he : e.1 = key
      · simp [lookup, he] at h
      · simp [lookup, he] at h
        simp [eraseKey, he, ih h]

theorem eraseKey_length_nodup {α : Type} (l : List (String × α)) (key : String) (v : α)
    (hnd : (l.map Prod.fst).Nodup) (h : lookup l key = some v) :
    (eraseKey l key).length + 1 = l.length := by
  induction l with
  | nil => simp [lookup] at h
  | cons e rest ih =>
      simp only [List.map_cons, List.nodup_cons] at hnd
      by_cases he : e.1 = key
      · have hrest : lookup rest key = none := by
          apply lookup_none_of_not_mem
          rw [← he]; exact hnd.1
        simp [eraseKey, he, eraseKey_of_lookup_none rest key hrest]
      · simp [lookup, he] at h
        have := ih hnd.2 h
        simp [eraseKey, he]; omega

/-! ### The LRU `ModelCache` (`class ModelCache` in `chat_api.py`)

Each operation returns, besides the new cache state, the instrumentation
the spec claims talk about: `put` returns the list of evicted entries
(`popitem(last=False)` results — `_free_memory` runs once per evicted
entry), `remove` returns whether a removal occurred and how many times
`_free_memory` ran, `clear` returns how many times `_free_memory` ran. -/

structure ModelCache (α : Type) where
  cache : List (String × α)
  max_size : Nat

/-- `__init__`: empty `OrderedDict` with the configured bound. -/
def ModelCache.init (α : Type) (max_size : Nat) : ModelCache α := ⟨[], max_size⟩

/-- `get`: on a hit, `move_to_end(key)` then return the value; on a miss
return `None` and leave the cache untouched. -/
def ModelCache.get {α : Type} (c : ModelCache α) (key : String) :
    Option α × ModelCache α :=
  match lookup c.cache key with
  | some v => (some v, ⟨eraseKey c.cache key ++ [(key, v)], c.max_size⟩)
  | none => (none, c)

/-- `put`: on a hit, `move_to_end(key)` and overwrite the value (no
eviction, `_free_memory` not called).  Otherwise, if `len >= max_size`,
`popitem(last=False)` evicts the front (least-recently-used) entry and
`_free_memory` runs; then the new entry is appended as most recent.
`popitem` on an empty dict raises `KeyError`; that branch is unreachable
whenever `max_size ≥ 1`, and we let it insert without evicting. -/
def ModelCache.put {α : Type} (c : ModelCache α) (key : String) (value : α) :
    ModelCache α × List (String × α) :=
  match lookup c.cache key with
  | some _ => (⟨eraseKey c.cache key ++ [(key, value)], c.max_size⟩, [])
  | none =>
    if c.max_size ≤ c.cache.length then
      match c.cache with
      | [] => (⟨[(key, value)], c.max_size⟩, [])
      | e :: rest => (⟨rest ++ [(key, value)], c.max_size⟩, [e])
    else
      (⟨c.cache ++ [(key, value)], c.max_size⟩, [])

/-- `remove`: delete the key if present and run `_free_memory` once;
returns `(removal occurred, new state, number of _free_memory calls)`. -/
def ModelCache.remove {α : Type} (c : ModelCache α) (key : String) :
    Bool × ModelCache α × Nat :=
  match lookup c.cache key with
  | some _ => (true, ⟨eraseKey c.cache key, c.max_size⟩, 1)
  | none => (false, c, 0)

/-- `clear`: drop all entries, one `_free_memory` call. -/
def ModelCache.clear {α : Type} (c : ModelCache α) : ModelCache α × Nat :=
  (⟨[], c.max_size⟩, 1)

/-- One public cache operation, for stating properties of whole call
sequences. -/
inductive CacheOp (α : Type) where
  | get (key : String)
  | put (key : String) (value : α)
  | remove (key : String)
  | clear

/-- The state after one operation (outputs discarded). -/
def applyOp {α : Type} (c : ModelCache α) : CacheOp α → ModelCache α
  | CacheOp.get key => (c.get key).2
  | CacheOp.put key value => (c.put key value).1
  | CacheOp.remove key => (c.remove key).2.1
  | CacheOp.clear => c.clear.1

/-- The state after a sequence of operations. -/
def ModelCache.runOps {α : Type} (c : ModelCache α) (ops : List (CacheOp α)) : ModelCache α :=
  ops.foldl applyOp c

theorem applyOp_max_size {α : Type} (c : ModelCache α) (op : CacheOp α) :
    (applyOp c op).max_size = c.max_size := by
  cases op with
  | get key =>
      simp only [applyOp, ModelCache.get]
      split <;> rfl
  | put key value =>
      simp only [applyOp, ModelCache.put]
      split
      · rfl
      · split
        · split <;> rfl
        · rfl
  | remove key =>
      simp only [applyOp, ModelCache.remove]
      split <;> rfl
  | clear => rfl

theorem applyOp_length_le {α : Type} (c : ModelCache α) (op : CacheOp α)
    (hN : 1 ≤ c.max_size) (hlen : c.cache.length ≤ c.max_size) :
    (applyOp c op).cache.length ≤ c.max_size := by
  cases op with
  | get key =>
      simp only [applyOp, ModelCache.get]
      split
      · next v h =>
          have := eraseKey_length_lt c.cache key v h
          simp; omega
      · exact hlen
  | put key value =>
      simp only [applyOp, ModelCache.put]
      split
      · next v h =>
          have := eraseKey_length_lt c.cache key v h
          simp; omega
      · split
        · split
          · next hc => simpa using hN
          · next e rest hc =>
              rw [hc] at hlen
              simp at hlen ⊢
              omega
        · next hfull =>
            simp
            omega
  | remove key =>
      simp only [applyOp, ModelCache.remove]
      split
      · next v h =>
          have := eraseKey_length_le c.cache key
          simp; omega
      · exact hlen
  | clear => simp [applyOp, ModelCache.clear]

theorem runOps_length_le {α : Type} (N : Nat) (hN : 1 ≤ N) (ops : List (CacheOp α))
    (c : ModelCache α) (hmax : c.max_size = N) (hlen : c.cache.length ≤ N) :
    ((c.runOps ops).cache.length ≤ N) ∧ (c.runOps ops).max_size = N := by
  induction ops generalizing c with
  | nil => exact ⟨hlen, hmax⟩
  | cons op ops ih =>
      have hmax' : (applyOp c op).max_size = N := by rw [applyOp_max_size, hmax]
      have hlen' : (applyOp c op).cache.length ≤ N := by
        have := applyOp_length_le c op (hmax ▸ hN) (hmax ▸ hlen)
        rwa [hmax] at this
      exact ih (applyOp c op) hmax' hlen'

/-- On a full cache (`max_size ≤ len`) and an absent key, `put` evicts
exactly the front (least-recently-used) entry before appending. -/
theorem put_evicts_front {α : Type} (c : ModelCache α) (k : String) (v : α)
    (habsent : lookup c.cache k = none) (hfull : c.max_size ≤ c.cache.length)
    (hne : c.cache ≠ []) :
    (c.put k v).1.cache = c.cache.tail ++ [(k, v)] ∧ (c.put k v).2 = c.cache.take 1 := by
  cases hc : c.cache with
  | nil => exact absurd hc hne
  | cons e rest =>
      rw [hc] at habsent hfull
      simp only [List.length_cons] at hfull
      constructor <;> simp [ModelCache.put, hc, habsent, hfull]

/-- After any `put`, the key is resident and maps to the stored value. -/
theorem lookup_put_self {α : Type} (c : ModelCache α) (k : String) (v : α) :
    lookup (c.put k v).1.cache k = some v := by
  obtain ⟨l, n⟩ := c
  cases l with
  | nil =>
      simp only [ModelCache.put, lookup]
      split <;> simp [lookup]
  | cons e rest =>
      simp only [ModelCache.put]
      cases h : lookup (e :: rest) k with
      | some w =>
          simp only
          rw [lookup_append, lookup_eraseKey_self]
          simp [lookup]
      | none =>
          have hrest : lookup rest k = none := by
            rw [lookup_cons] at h
            by_cases he : e.1 = k
            · simp [he] at h
            · simpa [he] using h
          simp only
          split
          · simp only
            rw [lookup_append, hrest]
            simp [lookup]
          · rw [lookup_append, h]
            simp [lookup]

/-! ### Concrete fixtures used by witnesses and counterexamples -/

def keyA : String := "a"
def keyB : String := "b"
def keyC : String := "c"

/-- A full cache of capacity 1 holding only `keyA`. -/
def demoCache1 : ModelCache Nat := ⟨[(keyA, 0)], 1⟩

/-- A full cache of capacity 2 holding `keyA` (least recent) and `keyB`. -/
def demoCache2 : ModelCache Nat := ⟨[(keyA, 0), (keyB, 1)], 2⟩

/-! ### Claims about `ModelCache` -/

/-- C1: on a `ModelCache` of maximum size `N ≥ 1`, the number of resident
entries is at most `N` after every `get`/`put`/`remove`/`clear` in any
sequence of operations started from the freshly constructed cache; and a
`put` of a non-resident key into a cache holding exactly `N` entries
removes exactly one entry — the least-recently-used (front) one — before
appending the new entry as most recent. -/
theorem cache_size_bound_and_lru_single_eviction (N : Nat) (k : String) (v : Nat)
    (c : ModelCache Nat) (hN : 1 ≤ N) (hmax : c.max_size = N)
    (habsent : lookup c.cache k = none) (hfull : c.cache.length = N) :
    (∀ ops : List (CacheOp Nat), ((ModelCache.init Nat N).runOps ops).cache.length ≤ N) ∧
    (c.put k v).2 = c.cache.take 1 ∧
    (c.put k v).1.cache = c.cache.tail ++ [(k, v)] := by
  have hrun : ∀ ops : List (CacheOp Nat),
      ((ModelCache.init Nat N).runOps ops).cache.length ≤ N :=
    fun ops => (runOps_length_le N hN ops (ModelCache.init Nat N) rfl
      (by simp [ModelCache.init])).1
  have hne : c.cache ≠ [] := by
    intro h
    rw [h] at hfull
    simp at hfull
    omega
  have hle : c.max_size ≤ c.cache.length := by rw [hmax, hfull]
  have := put_evicts_front c k v habsent hle hne
  exact ⟨hrun, this.2, this.1⟩

/-- Witness for C1 at `N = 1`: the singleton full cache `demoCache1` and
the fresh key `keyB`. -/
theorem cache_size_bound_and_lru_single_eviction_witness :
    (1 ≤ 1 ∧ demoCache1.max_size = 1 ∧ lookup demoCache1.cache keyB = none ∧
      demoCache1.cache.length = 1) ∧
    ((∀ ops : List (CacheOp Nat), ((ModelCache.init Nat 1).runOps ops).cache.length ≤ 1) ∧
     (demoCache1.put keyB 7).2 = demoCache1.cache.take 1 ∧
     (demoCache1.put keyB 7).1.cache = demoCache1.cache.tail ++ [(keyB, 7)]) :=
  ⟨⟨by decide, by decide, by decide, by decide⟩,
   cache_size_bound_and_lru_single_eviction 1 keyB 7 demoCache1
     (by decide) (by decide) (by decide) (by decide)⟩

/-- C2 counterexample: with capacity `N = 1` the claim fails.  In the full
cache `demoCache1`, key `keyA` is resident and just promoted by `get`, key
`keyB` is a distinct non-resident key, yet `put keyB` immediately
afterwards does evict `keyA`. -/
theorem lru_get_promotion_cex :
    lookup demoCache1.cache keyA = some 0 ∧
    demoCache1.cache.length = demoCache1.max_size ∧
    lookup demoCache1.cache keyB = none ∧
    lookup (((demoCache1.get keyA).2.put keyB 1).1).cache keyA = none := by decide

/-- C2 (amended): the evicted entry on a full-cache `put` of an absent key
is exactly the least-recently-used (front) resident; `get k` on a present
key promotes `k` to most-recently-used; and — provided the capacity is at
least 2, so that `k` is not the sole occupant — a `put` of a distinct
non-resident key into the full cache immediately after the `get` never
evicts `k` (with capacity 1 the sole occupant `k` is necessarily evicted,
as the code's tie-break rule itself states). -/
theorem lru_eviction_and_promotion (N : Nat) (c : ModelCache Nat) (k k' : String)
    (v v' : Nat) (hmax : c.max_size = N) (h2 : 2 ≤ N) (hfull : c.cache.length = N)
    (hnodup : (c.cache.map Prod.fst).Nodup)
    (hk : lookup c.cache k = some v) (hk' : lookup c.cache k' = none) :
    (c.put k' v').2 = c.cache.take 1 ∧
    ((c.get k).2).cache.getLast? = some (k, v) ∧
    lookup (((c.get k).2.put k' v').1).cache k = some v := by
  have hne : k' ≠ k := by
    intro h
    rw [h, hk] at hk'
    cases hk'
  have hnonempty : c.cache ≠ [] := by
    intro h
    rw [h] at hfull
    simp at hfull
    omega
  have hle : c.max_size ≤ c.cache.length := by rw [hmax, hfull]
  refine ⟨(put_evicts_front c k' v' hk' hle hnonempty).2, ?_, ?_⟩
  · simp [ModelCache.get, hk]
  · have hget : (c.get k).2.cache = eraseKey c.cache k ++ [(k, v)] := by
      simp [ModelCache.get, hk]
    have herase_len : (eraseKey c.cache k).length + 1 = c.cache.length :=
      eraseKey_length_nodup c.cache k v hnodup hk
    obtain ⟨e, rest, herase⟩ : ∃ e rest, eraseKey c.cache k = e :: rest := by
      cases he : eraseKey c.cache k with
      | nil => rw [he] at herase_len; simp at herase_len; omega
      | cons e rest => exact ⟨e, rest, rfl⟩
    have hkk : ¬ (k = k') := fun hh => hne hh.symm
    have habsent1 : lookup (c.get k).2.cache k' = none := by
      rw [hget, lookup_append, lookup_eraseKey_ne c.cache k k' hne, hk']
      simp [lookup, hkk]
    have hfull1 : (c.get k).2.max_size ≤ (c.get k).2.cache.length := by
      have hm : (c.get k).2.max_size = c.max_size := by
        simp [ModelCache.get, hk]
      rw [hm, hget]
      simp
      omega
    have hne1 : (c.get k).2.cache ≠ [] := by
      rw [hget]
      simp
    have hput := (put_evicts_front (c.get k).2 k' v' habsent1 hfull1 hne1).1
    rw [hput, hget, herase]
    have hrest : lookup rest k = none := by
      have := lookup_eraseKey_self c.cache k
      rw [herase, lookup_cons] at this
      by_cases he : e.1 = k
      · simp [he] at this
      · simpa [he] using this
    simp only [List.cons_append, List.tail_cons, List.append_assoc]
    rw [lookup_append, hrest]
    simp [lookup]

/-- Witness for C2 (amended) at `N = 2` on `demoCache2` with `k = keyA`,
fresh key `keyC`. -/
theorem lru_eviction_and_promotion_witness :
    (demoCache2.max_size = 2 ∧ 2 ≤ 2 ∧ demoCache2.cache.length = 2 ∧
     (demoCache2.cache.map Prod.fst).Nodup ∧
     lookup demoCache2.cache keyA = some 0 ∧ lookup demoCache2.cache keyC = none) ∧
    ((demoCache2.put keyC 5).2 = demoCache2.cache.take 1 ∧
     ((demoCache2.get keyA).2).cache.getLast? = some (keyA, 0) ∧
     lookup (((demoCache2.get keyA).2.put keyC 5).1).cache keyA = some 0) :=
  ⟨⟨by decide, by decide, by decide, by decide, by decide, by decide⟩,
   lru_eviction_and_promotion 2 demoCache2 keyA keyC 0 5
     (by decide) (by decide) (by decide) (by decide) (by decide) (by decide)⟩

/-- C9: `put k v` on an already-resident key replaces `k`'s value and
promotes it to most-recently-used, and changes nothing else: the other
entries and their relative order are untouched, nothing is evicted (so the
reclamation hook `_free_memory` is not invoked for the displaced old value
of `k`), and the cache size is unchanged. -/
theorem put_resident_frame (α : Type) (c : ModelCache α) (k : String) (v v₀ : α)
    (hres : lookup c.cache k = some v₀)
    (hnodup : (c.cache.map Prod.fst).Nodup) :
    (c.put k v).1.cache = eraseKey c.cache k ++ [(k, v)] ∧
    (c.put k v).2 = [] ∧
    (c.put k v).1.cache.length = c.cache.length ∧
    lookup (c.put k v).1.cache k = some v := by
  have h1 : (c.put k v).1.cache = eraseKey c.cache k ++ [(k, v)] := by
    simp [ModelCache.put, hres]
  have h2 : (c.put k v).2 = [] := by
    simp [ModelCache.put, hres]
  refine ⟨h1, h2, ?_, ?_⟩
  · rw [h1]
    simp
    have := eraseKey_length_nodup c.cache k v₀ hnodup hres
    omega
  · rw [h1, lookup_append, lookup_eraseKey_self]
    simp [lookup]

/-- Witness for C9 on `demoCache2`, overwriting resident `keyA`. -/
theorem put_resident_frame_witness :
    (lookup demoCache2.cache keyA = some 0 ∧ (demoCache2.cache.map Prod.fst).Nodup) ∧
    ((demoCache2.put keyA 9).1.cache = eraseKey demoCache2.cache keyA ++ [(keyA, 9)] ∧
     (demoCache2.put keyA 9).2 = [] ∧
     (demoCache2.put keyA 9).1.cache.length = demoCache2.cache.length ∧
     lookup (demoCache2.put keyA 9).1.cache keyA = some 9) :=
  ⟨⟨by decide, by decide⟩,
   put_resident_frame Nat demoCache2 keyA 9 0 (by decide) (by decide)⟩

/-! ### Model loading (`load_model` / `get_model` in `chat_api.py`)

The filesystem surroundings of one model path and the opaque external
library objects are modelled by an `ArtifactDir` record: which files
exist, the tokenizer produced by `GPT2Tokenizer.from_pretrained`, the
weights object (an opaque id), and the result of `json.load` on
`training_config.json` (`none` means the file is malformed and `json.load`
raises `JSONDecodeError`; the code has no try/except around it).
Exceptions are modelled by `Except`; the globally mutated `model_cache` is
threaded through explicitly, so each function returns the cache state as
it stands when the function returns or the exception escapes. -/

inductive Device where
  | cpu
  | cuda
deriving DecidableEq

structure Tokenizer where
  pad_token : Option Nat
  eos_token : Nat
deriving DecidableEq

structure ArtifactDir where
  isDir : Bool
  hasPytorchBin : Bool
  hasSafetensors : Bool
  tokenizer : Tokenizer
  weightsId : Nat
  hasConfigFile : Bool
  configJson : Option (List (String × String))
deriving DecidableEq

/-- `HTTPException(404, ...)` raised by `load_model`, or the
`json.JSONDecodeError` escaping from `json.load`. -/
inductive LoadError where
  | httpNotFound (detail : String)
  | jsonDecodeError
deriving DecidableEq

/-- The `info` dict built by `load_model` (the ModelBundle). -/
structure ModelInfo where
  tokenizer : Tokenizer
  model : Nat
  device : Device
  loaded_at : Nat
  config : List (String × String)
deriving DecidableEq

/-- `load_model(model_path)`: validate the directory and weight files
(404 otherwise), fall back to the eos token as pad token, pick the device,
read the optional `training_config.json` (propagating the `json.load`
exception on malformed content), build the info dict, and insert it into
the global cache via `model_cache.put` before returning it. -/
def load_model (a : ArtifactDir) (path : String) (cudaAvailable : Bool) (now : Nat)
    (model_cache : ModelCache ModelInfo) :
    Except LoadError ModelInfo × ModelCache ModelInfo :=
  if a.isDir = false then
    (Except.error (LoadError.httpNotFound ("Model directory not found: " ++ path)), model_cache)
  else if a.hasPytorchBin = false ∧ a.hasSafetensors = false then
    (Except.error (LoadError.httpNotFound ("No model weights found in: " ++ path)), model_cache)
  else
    let tokenizer :=
      if a.tokenizer.pad_token = none then
        (⟨some a.tokenizer.eos_token, a.tokenizer.eos_token⟩ : Tokenizer)
      else a.tokenizer
    let device := if cudaAvailable then Device.cuda else Device.cpu
    let training_config : Except LoadError (List (String × String)) :=
      if a.hasConfigFile then
        match a.configJson with
        | some cfg => Except.ok cfg
        | none => Except.error LoadError.jsonDecodeError
      else Except.ok []
    match training_config with
    | Except.error e => (Except.error e, model_cache)
    | Except.ok cfg =>
        let info : ModelInfo := ⟨tokenizer, a.weightsId, device, now, cfg⟩
        (Except.ok info, (model_cache.put path info).1)

/-- `get_model(model_path)`: return the cached bundle on a hit, otherwise
call `load_model`.  The third component counts how many times the loader
ran during the call. -/
def get_model (a : ArtifactDir) (path : String) (cudaAvailable : Bool) (now : Nat)
    (model_cache : ModelCache ModelInfo) :
    Except LoadError ModelInfo × ModelCache ModelInfo × Nat :=
  match model_cache.get path with
  | (some info, c2) => (Except.ok info, c2, 0)
  | (none, c2) =>
      ((load_model a path cudaAvailable now c2).1, (load_model a path cudaAvailable now c2).2, 1)

/-- A successful `load_model` returns the cache with the new bundle
inserted by `model_cache.put`. -/
theorem load_model_cache_of_ok (a : ArtifactDir) (path : String) (cuda : Bool)
    (now : Nat) (cache : ModelCache ModelInfo) (info : ModelInfo)
    (hok : (load_model a path cuda now cache).1 = Except.ok info) :
    (load_model a path cuda now cache).2 = (cache.put path info).1 := by
  by_cases h1 : a.isDir = false
  · simp [load_model, h1] at hok
  · by_cases h2 : a.hasPytorchBin = false ∧ a.hasSafetensors = false
    · simp [load_model, h1, h2] at hok
    · by_cases h3 : a.hasConfigFile = true
      · cases hcj : a.configJson with
        | none => simp [load_model, h1, h2, h3, hcj] at hok
        | some cfg =>
            simp [load_model, h1, h2, h3, hcj] at hok ⊢
            rw [hok]
      · simp [load_model, h1, h2, h3] at hok ⊢
        rw [hok]

/-! ### Fixtures for the loader claims -/

def pathM : String := "models/demo"

/-- A well-formed artifact: directory exists, `pytorch_model.bin` present,
no `training_config.json`, tokenizer without a pad token. -/
def goodArtifact : ArtifactDir := ⟨true, true, false, ⟨none, 50256⟩, 1, false, none⟩

/-- The bundle `load_model goodArtifact pathM false 0` constructs. -/
def goodInfo : ModelInfo := ⟨⟨some 50256, 50256⟩, 1, Device.cpu, 0, []⟩

/-- Directory exists and weights exist, but `training_config.json` is
present and malformed (`json.load` raises). -/
def malformedMetaArtifact : ArtifactDir := ⟨true, true, false, ⟨some 0, 50256⟩, 7, true, none⟩

/-- The model path does not reference an existing directory. -/
def missingDirArtifact : ArtifactDir := ⟨false, false, false, ⟨none, 0⟩, 0, false, none⟩

/-- A cache of capacity 3 holding the bundle of `pathM`. -/
def residentCache : ModelCache ModelInfo := ⟨[(pathM, goodInfo)], 3⟩

/-! ### Claims about the loader -/

/-- C3 counterexample: a successful `load_model` DOES itself insert the
bundle into the residency cache — starting from an empty cache, the cache
returned by the (successful) load already holds the key. -/
theorem load_model_side_effect_cex :
    (load_model goodArtifact pathM false 0 (ModelCache.init ModelInfo 3)).1 =
      Except.ok goodInfo ∧
    lookup (ModelCache.init ModelInfo 3).cache pathM = none ∧
    lookup ((load_model goodArtifact pathM false 0 (ModelCache.init ModelInfo 3)).2).cache pathM =
      some goodInfo :=
  ⟨rfl, rfl, rfl⟩

/-- C3 (amended): a successful `load_model` itself inserts the constructed
bundle into the residency cache — the returned cache state is exactly
`cache.put path info`, with the bundle resident — and the orchestrator
`get_model` performs no insertion of its own after `load_model` returns
(on a miss it returns the loader's cache state unchanged). -/
theorem load_model_inserts_into_cache (a : ArtifactDir) (path : String) (cuda : Bool)
    (now : Nat) (cache : ModelCache ModelInfo) (info : ModelInfo)
    (hmiss : lookup cache.cache path = none)
    (hok : (load_model a path cuda now cache).1 = Except.ok info) :
    (load_model a path cuda now cache).2 = (cache.put path info).1 ∧
    lookup ((load_model a path cuda now cache).2).cache path = some info ∧
    (get_model a path cuda now cache).2.1 = (load_model a path cuda now cache).2 := by
  have h := load_model_cache_of_ok a path cuda now cache info hok
  refine ⟨h, ?_, ?_⟩
  · rw [h]
    exact lookup_put_self cache path info
  · simp [get_model, ModelCache.get, hmiss]

/-- Witness for C3 (amended): loading `goodArtifact` into the empty cache. -/
theorem load_model_inserts_into_cache_witness :
    (lookup (ModelCache.init ModelInfo 3).cache pathM = none ∧
     (load_model goodArtifact pathM false 0 (ModelCache.init ModelInfo 3)).1 =
       Except.ok goodInfo) ∧
    ((load_model goodArtifact pathM false 0 (ModelCache.init ModelInfo 3)).2 =
       ((ModelCache.init ModelInfo 3).put pathM goodInfo).1 ∧
     lookup ((load_model goodArtifact pathM false 0 (ModelCache.init ModelInfo 3)).2).cache pathM =
       some goodInfo ∧
     (get_model goodArtifact pathM false 0 (ModelCache.init ModelInfo 3)).2.1 =
       (load_model goodArtifact pathM false 0 (ModelCache.init ModelInfo 3)).2) :=
  ⟨⟨rfl, rfl⟩,
   load_model_inserts_into_cache goodArtifact pathM false 0 (ModelCache.init ModelInfo 3)
     goodInfo rfl rfl⟩

/-- C4: `load_model` fails with a 404 NotFound `HTTPException` when the
path is not an existing directory or when neither `pytorch_model.bin` nor
`model.safetensors` is present, and in that case leaves the cache
unchanged; moreover every call either succeeds or leaves the residency
cache exactly as it was (a failed load never enters the cache). -/
theorem load_model_not_found_and_cache_unchanged (a : ArtifactDir) (path : String)
    (cuda : Bool) (now : Nat) (cache : ModelCache ModelInfo)
    (hbad : a.isDir = false ∨ (a.hasPytorchBin = false ∧ a.hasSafetensors = false)) :
    (∃ d, (load_model a path cuda now cache).1 = Except.error (LoadError.httpNotFound d)) ∧
    (load_model a path cuda now cache).2 = cache ∧
    (∀ (a2 : ArtifactDir) (p2 : String) (cu2 : Bool) (n2 : Nat) (ca2 : ModelCache ModelInfo),
      (∃ i, (load_model a2 p2 cu2 n2 ca2).1 = Except.ok i) ∨
      (load_model a2 p2 cu2 n2 ca2).2 = ca2) := by
  have hgen : ∀ (a2 : ArtifactDir) (p2 : String) (cu2 : Bool) (n2 : Nat)
      (ca2 : ModelCache ModelInfo),
      (∃ i, (load_model a2 p2 cu2 n2 ca2).1 = Except.ok i) ∨
      (load_model a2 p2 cu2 n2 ca2).2 = ca2 := by
    intro a2 p2 cu2 n2 ca2
    simp only [load_model]
    split
    · right; rfl
    · split
      · right; rfl
      · split
        · right; rfl
        · left; exact ⟨_, rfl⟩
  rcases hbad with hdir | hw
  · refine ⟨⟨("Model directory not found: " ++ path), ?_⟩, ?_, hgen⟩ <;>
      simp [load_model, hdir]
  · by_cases hdir : a.isDir = false
    · refine ⟨⟨("Model directory not found: " ++ path), ?_⟩, ?_, hgen⟩ <;>
        simp [load_model, hdir]
    · refine ⟨⟨("No model weights found in: " ++ path), ?_⟩, ?_, hgen⟩ <;>
        simp [load_model, hdir, hw.1, hw.2]

/-- Witness for C4: a path that is not a directory, loaded into the
one-entry cache `residentCache`. -/
theorem load_model_not_found_and_cache_unchanged_witness :
    (missingDirArtifact.isDir = false ∨
      (missingDirArtifact.hasPytorchBin = false ∧ missingDirArtifact.hasSafetensors = false)) ∧
    ((∃ d, (load_model missingDirArtifact pathM false 0 residentCache).1 =
        Except.error (LoadError.httpNotFound d)) ∧
     (load_model missingDirArtifact pathM false 0 residentCache).2 = residentCache ∧
     (∀ (a2 : ArtifactDir) (p2 : String) (cu2 : Bool) (n2 : Nat) (ca2 : ModelCache ModelInfo),
       (∃ i, (load_model a2 p2 cu2 n2 ca2).1 = Except.ok i) ∨
       (load_model a2 p2 cu2 n2 ca2).2 = ca2)) :=
  ⟨Or.inl rfl,
   load_model_not_found_and_cache_unchanged missingDirArtifact pathM false 0 residentCache
     (Or.inl rfl)⟩

/-- C7 counterexample: an artifact whose metadata document is present but
malformed makes `load_model` fail with the escaping `JSONDecodeError`
(FastAPI turns this into a 500) instead of succeeding with empty
metadata. -/
theorem malformed_metadata_cex :
    malformedMetaArtifact.hasConfigFile = true ∧
    malformedMetaArtifact.configJson = none ∧
    (load_model malformedMetaArtifact pathM false 0 (ModelCache.init ModelInfo 3)).1 =
      Except.error LoadError.jsonDecodeError :=
  ⟨rfl, rfl, rfl⟩

/-- C7 (amended): for every artifact whose optional metadata document is
present but malformed, `load_model` fails with the `JSONDecodeError`
escaping from `json.load` (there is no try/except), leaving the cache
unchanged; metadata is treated as empty only when the document is absent. -/
theorem malformed_metadata_fails_load (a : ArtifactDir) (path : String) (cuda : Bool)
    (now : Nat) (cache : ModelCache ModelInfo)
    (hdir : a.isDir = true) (hw : a.hasPytorchBin = true ∨ a.hasSafetensors = true)
    (hcfg : a.hasConfigFile = true) (hmal : a.configJson = none) :
    (load_model a path cuda now cache).1 = Except.error LoadError.jsonDecodeError ∧
    (load_model a path cuda now cache).2 = cache := by
  have hw2 : ¬ (a.hasPytorchBin = false ∧ a.hasSafetensors = false) := by
    rcases hw with h | h <;> simp [h]
  constructor <;> simp [load_model, hdir, hw2, hcfg, hmal]

/-- Witness for C7 (amended): `malformedMetaArtifact`. -/
theorem malformed_metadata_fails_load_witness :
    (malformedMetaArtifact.isDir = true ∧
     (malformedMetaArtifact.hasPytorchBin = true ∨ malformedMetaArtifact.hasSafetensors = true) ∧
     malformedMetaArtifact.hasConfigFile = true ∧ malformedMetaArtifact.configJson = none) ∧
    ((load_model malformedMetaArtifact pathM false 0 residentCache).1 =
       Except.error LoadError.jsonDecodeError ∧
     (load_model malformedMetaArtifact pathM false 0 residentCache).2 = residentCache) :=
  ⟨⟨rfl, Or.inl rfl, rfl, rfl⟩,
   malformed_metadata_fails_load malformedMetaArtifact pathM false 0 residentCache
     rfl (Or.inl rfl) rfl rfl⟩

/-- C8: resolving a resident key is a pure cache hit: `get_model` on a
resident key returns the cached bundle with zero loader invocations and
the key stays resident with the same bundle; and resolving the same path
twice starting from a miss (whose load succeeds) performs exactly one
loader invocation in total. -/
theorem resolve_resident_pure_hit (a : ArtifactDir) (path : String) (cuda : Bool)
    (now now2 now3 : Nat) (cache c0 : ModelCache ModelInfo) (info info0 : ModelInfo)
    (hres : lookup cache.cache path = some info)
    (hmiss : lookup c0.cache path = none)
    (hok : (load_model a path cuda now c0).1 = Except.ok info0) :
    (get_model a path cuda now2 cache).1 = Except.ok info ∧
    (get_model a path cuda now2 cache).2.2 = 0 ∧
    lookup ((get_model a path cuda now2 cache).2.1).cache path = some info ∧
    (get_model a path cuda now c0).2.2 +
      (get_model a path cuda now3 ((get_model a path cuda now c0).2.1)).2.2 = 1 := by
  refine ⟨?_, ?_, ?_, ?_⟩
  · simp [get_model, ModelCache.get, hres]
  · simp [get_model, ModelCache.get, hres]
  · simp only [get_model, ModelCache.get, hres]
    rw [lookup_append, lookup_eraseKey_self]
    simp [lookup]
  · have h1 : (get_model a path cuda now c0).2.1 = (load_model a path cuda now c0).2 := by
      simp [get_model, ModelCache.get, hmiss]
    have hcount1 : (get_model a path cuda now c0).2.2 = 1 := by
      simp [get_model, ModelCache.get, hmiss]
    have h2 : lookup ((get_model a path cuda now c0).2.1).cache path = some info0 := by
      rw [h1, load_model_cache_of_ok a path cuda now c0 info0 hok]
      exact lookup_put_self c0 path info0
    have hcount2 : ∀ c1 : ModelCache ModelInfo, lookup c1.cache path = some info0 →
        (get_model a path cuda now3 c1).2.2 = 0 := by
      intro c1 hc1
      simp [get_model, ModelCache.get, hc1]
    rw [hcount1, hcount2 _ h2]

/-- Witness for C8: `pathM` resident in `residentCache`; a fresh load of
`goodArtifact` into the empty cache succeeds. -/
theorem resolve_resident_pure_hit_witness :
    (lookup residentCache.cache pathM = some goodInfo ∧
     lookup (ModelCache.init ModelInfo 3).cache pathM = none ∧
     (load_model goodArtifact pathM false 0 (ModelCache.init ModelInfo 3)).1 =
       Except.ok goodInfo) ∧
    ((get_model goodArtifact pathM false 0 residentCache).1 = Except.ok goodInfo ∧
     (get_model goodArtifact pathM false 0 residentCache).2.2 = 0 ∧
     lookup ((get_model goodArtifact pathM false 0 residentCache).2.1).cache pathM =
       some goodInfo ∧
     (get_model goodArtifact pathM false 0 (ModelCache.init ModelInfo 3)).2.2 +
       (get_model goodArtifact pathM false 0
         ((get_model goodArtifact pathM false 0 (ModelCache.init ModelInfo 3)).2.1)).2.2 = 1) :=
  ⟨⟨rfl, rfl, rfl⟩,
   resolve_resident_pure_hit goodArtifact pathM false 0 0 0 residentCache
     (ModelCache.init ModelInfo 3) goodInfo goodInfo rfl rfl rfl⟩

/-! ### Response post-processing (`clean_response` in `chat_api.py`)

Python strings are modelled through their character lists (`String.data`).
`str.strip()` is modelled over the ASCII whitespace characters Python
strips; the further Unicode space code points Python also strips are
immaterial to the claims. -/

def isPySpace (c : Char) : Bool :=
  c == ' ' || c == '\t' || c == '\n' || c == '\r' || c == '\x0b' || c == '\x0c'

/-- `ch in ".!?"`. -/
def isSentenceEnd (c : Char) : Bool :=
  c == '.' || c == '!' || c == '?'

/-- `s.strip()`: drop leading and trailing whitespace. -/
def pyStrip (l : List Char) : List Char :=
  ((l.dropWhile isPySpace).reverse.dropWhile isPySpace).reverse

/-- `raw.startswith(prompt)`. -/
def startsWithChars : List Char → List Char → Bool
  | _, [] => true
  | [], _ :: _ => false
  | c :: cs, p :: ps => c == p && startsWithChars cs ps

/-- The loop `for i, ch in enumerate(response): if ch in ".!?": last_end = i`,
with accumulator `last_end` started at `-1`. -/
def lastEndFrom : List Char → Nat → Int → Int
  | [], _, last_end => last_end
  | c :: cs, i, last_end =>
      lastEndFrom cs (i + 1) (if isSentenceEnd c then (i : Int) else last_end)

def lastEnd (l : List Char) : Int := lastEndFrom l 0 (-1)

/-- The fixed fallback reply (the `\x27` escape is an apostrophe). -/
def fallbackText : String := "I\x27m not sure how to respond to that."

/-- `clean_response(raw, prompt)`: strip the echoed prompt, strip
whitespace, fall back if empty, truncate through the last
sentence-terminating character when its index is positive, and re-strip
(falling back again if empty). -/
def clean_response (raw : String) (prompt : String) : String :=
  let response0 :=
    if startsWithChars raw.data prompt.data then raw.data.drop prompt.data.length
    else raw.data
  let response1 := pyStrip response0
  if response1 = [] then fallbackText
  else
    let response2 :=
      if 0 < lastEnd response1 then response1.take ((lastEnd response1).toNat + 1)
      else response1
    if pyStrip response2 = [] then fallbackText else String.mk (pyStrip response2)

/-- Index of the last element satisfying `p`, by structural recursion from
the right — the spec's notion "the last occurrence of `.`, `!` or `?` is at
index `i`", formulated independently of the code's accumulator loop. -/
def findRightIdx (p : Char → Bool) : List Char → Option Nat
  | [] => none
  | c :: cs =>
      match findRightIdx p cs with
      | some j => some (j + 1)
      | none => if p c then some 0 else none

/-- The sanitizer as the spec sentence of C5 words it: strip the prompt
prefix if present, trim, fixed fallback if empty; if the last occurrence
of a sentence-terminating character is at index `i > 0` truncate through
it, if none exists or its only occurrence is at index 0 leave the text
as-is; re-trim and fall back again if now empty. -/
def clean_response_spec (raw : String) (prompt : String) : String :=
  let t0 :=
    if startsWithChars raw.data prompt.data then raw.data.drop prompt.data.length
    else raw.data
  let t1 := pyStrip t0
  if t1 = [] then fallbackText
  else
    let t2 :=
      match findRightIdx isSentenceEnd t1 with
      | some i => if 0 < i then t1.take (i + 1) else t1
      | none => t1
    if pyStrip t2 = [] then fallbackText else String.mk (pyStrip t2)

theorem lastEndFrom_eq (l : List Char) : ∀ (i : Nat) (acc : Int),
    lastEndFrom l i acc =
      match findRightIdx isSentenceEnd l with
      | some j => ((i + j : Nat) : Int)
      | none => acc := by
  induction l with
  | nil => intro i acc; rfl
  | cons c cs ih =>
      intro i acc
      simp only [lastEndFrom, findRightIdx]
      rw [ih]
      cases h : findRightIdx isSentenceEnd cs with
      | some j =>
          simp only [h]
          push_cast
          ring
      | none =>
          by_cases hc : isSentenceEnd c
          · simp [h, hc]
          · simp [h, hc]

theorem lastEnd_eq (l : List Char) :
    lastEnd l =
      match findRightIdx isSentenceEnd l with
      | some j => (j : Int)
      | none => -1 := by
  unfold lastEnd
  rw [lastEndFrom_eq]
  cases h : findRightIdx isSentenceEnd l <;> simp [h]

theorem lastEnd_of_none (l : List Char) (h : findRightIdx isSentenceEnd l = none) :
    lastEnd l = -1 := by
  rw [lastEnd_eq, h]

theorem lastEnd_of_some (l : List Char) (j : Nat)
    (h : findRightIdx isSentenceEnd l = some j) : lastEnd l = (j : Int) := by
  rw [lastEnd_eq, h]

/-- C5: the code's `clean_response` computes exactly the transformation
the spec describes (prompt-prefix strip, trim, fallback on empty, truncate
through the last sentence terminator when its index is positive, re-trim
with fallback). -/
theorem clean_response_matches_spec (raw prompt : String) :
    clean_response raw prompt = clean_response_spec raw prompt := by
  simp only [clean_response, clean_response_spec]
  set t1 := pyStrip
    (if startsWithChars raw.data prompt.data then raw.data.drop prompt.data.length
     else raw.data) with ht1
  have hsame : (if 0 < lastEnd t1 then t1.take ((lastEnd t1).toNat + 1) else t1) =
      (match findRightIdx isSentenceEnd t1 with
       | some i => if 0 < i then t1.take (i + 1) else t1
       | none => t1) := by
    cases hf : findRightIdx isSentenceEnd t1 with
    | none =>
        have he := lastEnd_of_none t1 hf
        have h0 : ¬ ((0 : Int) < lastEnd t1) := by rw [he]; decide
        simp [h0, hf]
    | some i =>
        have he := lastEnd_of_some t1 i hf
        by_cases hi : 0 < i
        · have h0 : (0 : Int) < lastEnd t1 := by rw [he]; exact_mod_cast hi
          have htn : (lastEnd t1).toNat = i := by rw [he]; simp
          simp [h0, hi, htn, hf]
        · have h0 : ¬ ((0 : Int) < lastEnd t1) := by rw [he]; simpa using hi
          simp [h0, hi, hf]
  rw [hsame]

/-! Idempotence of `pyStrip`, for C10. -/

theorem dropWhile_dropWhile (p : Char → Bool) (l : List Char) :
    (l.dropWhile p).dropWhile p = l.dropWhile p := by
  induction l with
  | nil => rfl
  | cons c cs ih =>
      by_cases h : p c
      · simp [List.dropWhile_cons, h, ih]
      · simp [List.dropWhile_cons, h]

theorem dropWhile_prefix_eq {p : Char → Bool} {x y : List Char}
    (hx : x.dropWhile p = x) (hyx : y <+: x) : y.dropWhile p = y := by
  cases y with
  | nil => rfl
  | cons c cs =>
      obtain ⟨t, ht⟩ := hyx
      have hx2 : List.dropWhile p (c :: (cs ++ t)) = c :: (cs ++ t) := by
        rw [← List.cons_append, ht]
        exact hx
      have hpc : p c = false := by
        cases hpcb : p c
        · rfl
        · rw [List.dropWhile_cons, hpcb] at hx2
          simp only [if_true] at hx2
          have hle : ((cs ++ t).dropWhile p).length ≤ (cs ++ t).length :=
            (List.dropWhile_suffix p).sublist.length_le
          rw [hx2] at hle
          simp at hle
      simp [List.dropWhile_cons, hpc]

theorem pyStrip_prefix_dropWhile (l : List Char) :
    pyStrip l <+: l.dropWhile isPySpace := by
  unfold pyStrip
  obtain ⟨w, hw⟩ :=
    List.dropWhile_suffix (l := (l.dropWhile isPySpace).reverse) (p := isPySpace)
  exact ⟨w.reverse, by rw [← List.reverse_append, hw, List.reverse_reverse]⟩

theorem pyStrip_dropWhile (l : List Char) :
    (pyStrip l).dropWhile isPySpace = pyStrip l :=
  dropWhile_prefix_eq (dropWhile_dropWhile isPySpace l) (pyStrip_prefix_dropWhile l)

theorem pyStrip_idem (l : List Char) : pyStrip (pyStrip l) = pyStrip l := by
  have h1 : pyStrip (pyStrip l) =
      (((pyStrip l).dropWhile isPySpace).reverse.dropWhile isPySpace).reverse := rfl
  rw [h1, pyStrip_dropWhile]
  have h2 : (pyStrip l).reverse = (l.dropWhile isPySpace).reverse.dropWhile isPySpace := by
    unfold pyStrip
    rw [List.reverse_reverse]
  rw [h2, dropWhile_dropWhile]
  rfl

/-- C10: for every raw text and prompt, `clean_response` returns a
non-empty string equal to its own whitespace-trimmed form. -/
theorem clean_response_trimmed_nonempty (raw prompt : String) :
    clean_response raw prompt ≠ "" ∧
    pyStrip (clean_response raw prompt).data = (clean_response raw prompt).data := by
  have hfb1 : fallbackText ≠ "" := by decide
  have hfb2 : pyStrip fallbackText.data = fallbackText.data := by decide
  simp only [clean_response]
  set t1 := pyStrip
    (if startsWithChars raw.data prompt.data then raw.data.drop prompt.data.length
     else raw.data) with ht1
  by_cases h : t1 = []
  · rw [if_pos h]
    exact ⟨hfb1, hfb2⟩
  · rw [if_neg h]
    set t2 := if 0 < lastEnd t1 then t1.take ((lastEnd t1).toNat + 1) else t1 with ht2
    by_cases h2 : pyStrip t2 = []
    · rw [if_pos h2]
      exact ⟨hfb1, hfb2⟩
    · rw [if_neg h2]
      constructor
      · intro hcontra
        apply h2
        simpa using congrArg String.data hcontra
      · show pyStrip (pyStrip t2) = pyStrip t2
        exact pyStrip_idem t2

/-! ### Generation (`generate_response` in `chat_api.py`)

The tokenizer's `encode`, its `eos_token_id`, and the composite
`tokenizer.decode(model.generate(**gen_kwargs)[0], skip_special_tokens=True)`
are external library capabilities, passed in as opaque functions; the
float-valued sampling parameters are carried opaquely in a type `F`. -/

/-- The `gen_kwargs` dict passed to `model.generate`; `top_k` is present
only when the requested top-k is positive. -/
structure GenConfig (F : Type) where
  input_ids : List Nat
  attention_mask : List Nat
  max_new_tokens : Nat
  temperature : F
  top_p : F
  do_sample : Bool
  pad_token_id : Nat
  num_return_sequences : Nat
  no_repeat_ngram_size : Nat
  repetition_penalty : F
  top_k : Option Nat

/-- `generate_response(...)`: encode the prompt, build `gen_kwargs`, run
the (opaque) generate-and-decode step, and return
`clean_response(full_text, message)`. -/
def generate_response (F : Type) (encode : String → List Nat) (eos_token_id : Nat)
    (model_generate : GenConfig F → String) (message : String) (max_length : Nat)
    (temperature top_p : F) (top_k : Nat) (repetition_penalty : F)
    (do_sample : Bool) : String :=
  let input_ids := encode message
  let attention_mask := input_ids.map (fun _ => 1)
  let gen_kwargs : GenConfig F :=
    ⟨input_ids, attention_mask, max_length, temperature, top_p, do_sample,
     eos_token_id, 1, 3, repetition_penalty,
     if 0 < top_k then some top_k else none⟩
  let full_text := model_generate gen_kwargs
  clean_response full_text message

/-- C6 counterexample: `generate_response` does not return the decoded
output unmodified — here the decode step yields a text with a dangling
final clause and the function returns the sanitized truncation instead. -/
theorem generate_response_not_raw_cex :
    generate_response Unit (fun _ => [1]) 0 (fun _ => "Hello there. And some trail")
        "" 20 () () 0 () true ≠ "Hello there. And some trail" := by
  decide

/-- C6 (amended): `generate_response` applies the sanitizer itself: it
returns `clean_response` of the decoded output and the message — with the
`gen_kwargs` built from the request (`top_k` only when positive) — rather
than the raw decoded sequence; no separate later step performs the
sanitization. -/
theorem generate_response_applies_sanitizer (F : Type) (encode : String → List Nat)
    (eos_token_id : Nat) (model_generate : GenConfig F → String) (message : String)
    (max_length : Nat) (temperature top_p : F) (top_k : Nat)
    (repetition_penalty : F) (do_sample : Bool) :
    generate_response F encode eos_token_id model_generate message max_length
        temperature top_p top_k repetition_penalty do_sample =
      clean_response
        (model_generate
          ⟨encode message, (encode message).map (fun _ => 1), max_length, temperature,
           top_p, do_sample, eos_token_id, 1, 3, repetition_penalty,
           if 0 < top_k then some top_k else none⟩)
        message := rfl

end ChatbotMaker
